import Mathlib

/-!
Verification development for the mongotop sampling/diff/render core
(src/mongotop/options.go).  The Go code is shallowly embedded: Go maps
become association lists, Go `int`/`int64` become `Int` (overflow is
irrelevant to the properties below), Go `float64` values become `GFloat`
(an exact rational together with the IEEE special values NaN and the two
infinities -- the code only produces floats by converting integers and
dividing/multiplying them, and every property below depends only on the
NaN/infinity structure and the ordering of the values, never on rounding),
and each fallible external call (driver command, BSON decode, cursor read)
becomes an explicit outcome datum consumed by the embedded function.
-/

namespace Mongotop

/-- Model of a Go `float64` as produced by this program: an exact value or
one of the IEEE special values.  `finite q` stands for the float with value
`q`; rounding is immaterial to the verified properties. -/
inductive GFloat where
  | nan : GFloat
  | negInf : GFloat
  | posInf : GFloat
  | finite (q : ℚ) : GFloat
deriving DecidableEq

/-- Model of `math.IsNaN`. -/
def GFloat.isNaN : GFloat → Bool
  | .nan => true
  | _ => false

/-- IEEE `==` on float64 (NaN is equal to nothing, including itself). -/
def GFloat.feq : GFloat → GFloat → Bool
  | .finite a, .finite b => decide (a = b)
  | .posInf, .posInf => true
  | .negInf, .negInf => true
  | _, _ => false

/-- IEEE `<` on float64 (false whenever either side is NaN). -/
def GFloat.flt : GFloat → GFloat → Bool
  | .nan, _ => false
  | _, .nan => false
  | .negInf, .negInf => false
  | .negInf, _ => true
  | _, .negInf => false
  | .posInf, _ => false
  | .finite _, .posInf => true
  | .finite a, .finite b => decide (a < b)

/-- Go's `float64(n)` conversion of an integer. -/
def GFloat.ofInt (n : Int) : GFloat := .finite (n : ℚ)

/-- IEEE division on float64 as used by the renderers: division by zero
produces NaN (for 0/0) or a signed infinity, never a crash. -/
def GFloat.fdiv : GFloat → GFloat → GFloat
  | .nan, _ => .nan
  | _, .nan => .nan
  | .posInf, .posInf => .nan
  | .posInf, .negInf => .nan
  | .negInf, .posInf => .nan
  | .negInf, .negInf => .nan
  | .posInf, .finite q => if q < 0 then .negInf else .posInf
  | .negInf, .finite q => if q < 0 then .posInf else .negInf
  | .finite _, .posInf => .finite 0
  | .finite _, .negInf => .finite 0
  | .finite a, .finite b =>
      if b = 0 then (if a = 0 then .nan else if 0 < a then .posInf else .negInf)
      else .finite (a / b)

/-- IEEE multiplication on float64 (only ever applied to the constant 100
by the renderer, but defined in full). -/
def GFloat.fmul : GFloat → GFloat → GFloat
  | .nan, _ => .nan
  | _, .nan => .nan
  | .posInf, .posInf => .posInf
  | .posInf, .negInf => .negInf
  | .negInf, .posInf => .negInf
  | .negInf, .negInf => .posInf
  | .posInf, .finite q => if q = 0 then .nan else if 0 < q then .posInf else .negInf
  | .finite q, .posInf => if q = 0 then .nan else if 0 < q then .posInf else .negInf
  | .negInf, .finite q => if q = 0 then .nan else if 0 < q then .negInf else .posInf
  | .finite q, .negInf => if q = 0 then .nan else if 0 < q then .negInf else .posInf
  | .finite a, .finite b => .finite (a * b)

/-- Decimal rendering of a rational with `prec` digits after the point;
stands in for Go's `fmt` formatting of a finite float (the exact rounding
mode of `fmt` is immaterial to every verified property). -/
def ratDecimal (prec : Nat) (q : ℚ) : String :=
  let scaled : Int := round (q * ((10 : ℚ) ^ prec))
  let s := scaled.natAbs
  let ip := s / 10 ^ prec
  let fp := s % 10 ^ prec
  let fs := toString fp
  let pad := String.mk (List.replicate (prec - fs.length) '0')
  (if scaled < 0 then "-" else "") ++ toString ip ++
    (if prec = 0 then "" else "." ++ pad ++ fs)

/-- Model of `fmt.Sprintf` with a `%0.<prec>f` verb: Go prints the special
values as `NaN`, `+Inf` and `-Inf`. -/
def GFloat.fmt (prec : Nat) : GFloat → String
  | .nan => "NaN"
  | .posInf => "+Inf"
  | .negInf => "-Inf"
  | .finite q => ratDecimal prec q

/-- Association-list lookup standing for reading a Go map; `mapIndex`
additionally models Go's zero-value result for a missing key. -/
def mapIndex {A : Type} (m : List (String × A)) (k : String) (z : A) : A :=
  (m.lookup k).getD z

/-- Go map assignment `m[k] = v` (replace an existing key, else append). -/
def mapInsert {A : Type} (k : String) (v : A) : List (String × A) → List (String × A)
  | [] => [(k, v)]
  | (k2, v2) :: rest => if k2 = k then (k, v) :: rest else (k2, v2) :: mapInsert k v rest

/-- `ReadWriteLockTimes` contains read/write lock times on a database
(fields R, W, r, w of `timeLockedMicros`). -/
structure ReadWriteLockTimes where
  Read : Int
  Write : Int
  ReadLower : Int
  WriteLower : Int
deriving DecidableEq

def ReadWriteLockTimes.zero : ReadWriteLockTimes := ⟨0, 0, 0, 0⟩

/-- `LockStats` from the serverStatus reply; `AcquireCount` is a nullable
pointer in the source. -/
structure LockStats where
  AcquireCount : Option ReadWriteLockTimes
  TimeLockedMicros : ReadWriteLockTimes
  TimeAcquiringMicros : ReadWriteLockTimes
deriving DecidableEq

def LockStats.zero : LockStats := ⟨none, ReadWriteLockTimes.zero, ReadWriteLockTimes.zero⟩

/-- `ServerStatus`: the decoded reply of the serverStatus command.  `Locks`
is a nilable Go map (hence `Option`); `time` is the sample timestamp in
nanoseconds. -/
structure ServerStatus where
  time : Int
  Locks : Option (List (String × LockStats))
deriving DecidableEq

/-- `LockDelta` represents the differences in read/write lock times
between two samples. -/
structure LockDelta where
  Read : Int
  Write : Int
deriving DecidableEq

/-- `ServerStatusDiff` contains a map of the lock time differences for
each database.  The informational `Time` creation-timestamp field of the
source is omitted (it never feeds any computation). -/
structure ServerStatusDiff where
  currentServerStatus : ServerStatus
  listCount : Int
  Totals : List (String × LockDelta)

/-- `TopField` contains the timing and counts for a single lock statistic
within the "top" command. -/
structure TopField where
  Time : Int
  Count : Int
deriving DecidableEq

/-- `NSTopInfo` holds information about a single namespace. -/
structure NSTopInfo where
  Total : TopField
  Read : TopField
  Write : TopField
deriving DecidableEq

def NSTopInfo.zero : NSTopInfo := ⟨⟨0, 0⟩, ⟨0, 0⟩, ⟨0, 0⟩⟩

/-- `Top` holds the decoded output of the "top" command; `time` is the
sample timestamp in nanoseconds. -/
structure Top where
  numCores : Int
  time : Int
  Totals : List (String × NSTopInfo)
deriving DecidableEq

/-- `TopDiff` contains a map of the differences between top samples for
each namespace (informational `Time` field omitted as above). -/
structure TopDiff where
  numCores : Int
  elapsed : Int
  currentTop : Top
  listCount : Int
  sortLatency : Bool
  Totals : List (String × NSTopInfo)

/-- `OperationMetricsMemberInfo`: the per-member read metrics of a
$operationMetrics row. -/
structure OperationMetricsMemberInfo where
  DocBytesRead : Int
  DocUnitsRead : Int
  IndexEntryBytesRead : Int
  IndexEntryUnitsRead : Int
  KeysSorted : Int
  SorterSpills : Int
  DocUnitsReturned : Int
  CursorSeeks : Int
deriving DecidableEq

def OperationMetricsMemberInfo.zero : OperationMetricsMemberInfo := ⟨0, 0, 0, 0, 0, 0, 0, 0⟩

/-- `OperationMetricsEntry`: one decoded $operationMetrics row. -/
structure OperationMetricsEntry where
  DBName : String
  PrimaryMetrics : OperationMetricsMemberInfo
  SecondaryMetrics : OperationMetricsMemberInfo
  DocBytesWritten : Int
  DocUnitsWritten : Int
  IndexEntryBytesWritten : Int
  IndexEntryUnitsWritten : Int
  CpuNanos : Int
deriving DecidableEq

def OperationMetricsEntry.zero : OperationMetricsEntry :=
  ⟨"", OperationMetricsMemberInfo.zero, OperationMetricsMemberInfo.zero, 0, 0, 0, 0, 0⟩

def OperationMetricsEntry.TotalDocUnits (e : OperationMetricsEntry) : Int :=
  e.PrimaryMetrics.DocUnitsRead + e.SecondaryMetrics.DocUnitsRead + e.DocUnitsWritten

/-- `OperationMetrics`: one $operationMetrics sample. -/
structure OperationMetrics where
  numCores : Int
  time : Int
  Entries : List (String × OperationMetricsEntry)
deriving DecidableEq

/-- Per-member deltas of an operation-metrics diff. -/
structure OperationMetricsMemberInfoDelta where
  DocBytesRead : Int
  DocUnitsRead : Int
  IndexEntryBytesRead : Int
  IndexEntryUnitsRead : Int
  KeysSorted : Int
  SorterSpills : Int
  DocUnitsReturned : Int
  CursorSeeks : Int
deriving DecidableEq

/-- Per-database deltas of an operation-metrics diff. -/
structure OperationMetricsEntryDelta where
  PrimaryMetrics : OperationMetricsMemberInfoDelta
  SecondaryMetrics : OperationMetricsMemberInfoDelta
  DocBytesWritten : Int
  DocUnitsWritten : Int
  IndexEntryBytesWritten : Int
  IndexEntryUnitsWritten : Int
  CpuNanos : Int
deriving DecidableEq

def OperationMetricsEntryDelta.TotalDocUnits (d : OperationMetricsEntryDelta) : Int :=
  d.PrimaryMetrics.DocUnitsRead + d.SecondaryMetrics.DocUnitsRead + d.DocUnitsWritten

/-- `OperationMetricsDiff` (informational `Time` field omitted). -/
structure OperationMetricsDiff where
  numCores : Int
  elapsed : Int
  currentOperation : OperationMetrics
  listCount : Int
  sortTotal : Bool
  Totals : List (String × OperationMetricsEntryDelta)

/-- Element-level form of the `sortableTotal` struct used for ranking. -/
structure sortableTotal where
  Name : String
  Total : GFloat
  Current : Int
deriving DecidableEq

/-- Lexicographic comparison of character lists, the body of Go's `<` on
strings (Go compares UTF-8 bytes, which orders exactly like comparing
the code points position by position). -/
def charListLt : List Char → List Char → Bool
  | [], [] => false
  | [], _ :: _ => true
  | _ :: _, [] => false
  | c1 :: r1, c2 :: r2 => if c1 < c2 then true else if c2 < c1 then false else charListLt r1 r2

/-- Go's `<` on strings. -/
def goStrLt (a b : String) : Bool := charListLt a.data b.data

/-- The comparator `sortableTotals.Less` of the source, expressed on the
two compared elements (the source receives the two positions `i`, `j` in
the slice): mirror of the four-branch body including the defensive NaN
branches; `a[i].Name > a[j].Name` is `goStrLt` with the sides swapped. -/
def sortableTotal.Less (x y : sortableTotal) : Bool :=
  if !x.Total.isNaN && y.Total.isNaN then false
  else if x.Total.isNaN && !y.Total.isNaN then true
  else if x.Total.isNaN || y.Total.isNaN then true
  else if x.Total.feq y.Total then
    (if decide (x.Current = y.Current) then goStrLt y.Name x.Name
     else decide (x.Current < y.Current))
  else x.Total.flt y.Total

/-- Ordered insertion for the comparison-sort model of `sort.Sort`. -/
def ordInsert {A : Type} (le : A → A → Bool) (x : A) : List A → List A
  | [] => [x]
  | y :: ys => if le x y then x :: y :: ys else y :: ordInsert le x ys

/-- Insertion sort: deterministic comparison-sort model of Go's
`sort.Sort`. -/
def insSort {A : Type} (le : A → A → Bool) : List A → List A
  | [] => []
  | x :: xs => ordInsert le x (insSort le xs)

/-- Model of `sort.Sort(sort.Reverse(totals))` followed by in-order
iteration: the element order is ascending with respect to the reversed
comparator, i.e. `x` may precede `y` exactly when `Less x y` is false. -/
def sortTotals (l : List sortableTotal) : List sortableTotal :=
  insSort (fun x y => !(sortableTotal.Less x y)) l

/-- Per-namespace subtraction block of `Top.Diff` (the inline struct
literal of the source): times are microseconds-to-milliseconds normalized
by truncated integer division, counts are plain differences. -/
def NSTopInfo.delta (prevInfo curInfo : NSTopInfo) : NSTopInfo where
  Total := ⟨Int.tdiv (curInfo.Total.Time - prevInfo.Total.Time) 1000,
            curInfo.Total.Count - prevInfo.Total.Count⟩
  Read := ⟨Int.tdiv (curInfo.Read.Time - prevInfo.Read.Time) 1000,
           curInfo.Read.Count - prevInfo.Read.Count⟩
  Write := ⟨Int.tdiv (curInfo.Write.Time - prevInfo.Write.Time) 1000,
            curInfo.Write.Count - prevInfo.Write.Count⟩

/-- `Top.Diff`: produces a `TopDiff` with the deltas of each metric
between the two samples; the loop over the previous map with the `ok`
membership test on the current map is the association-list `filterMap`. -/
def Top.Diff (top : Top) (previous : Top) (listCount : Int) (sortLatency : Bool) : TopDiff where
  numCores := previous.numCores
  elapsed := top.time - previous.time
  currentTop := top
  listCount := listCount
  sortLatency := sortLatency
  Totals := previous.Totals.filterMap fun e =>
    (top.Totals.lookup e.1).map fun c => (e.1, NSTopInfo.delta e.2 c)

/-- Per-namespace subtraction block of `ServerStatus.Diff`: summed upper-
and lower-case timeLockedMicros, difference, truncated division by 1000. -/
def LockStats.delta (prevNSInfo curNSInfo : LockStats) : LockDelta where
  Read := Int.tdiv (curNSInfo.TimeLockedMicros.Read + curNSInfo.TimeLockedMicros.ReadLower -
    (prevNSInfo.TimeLockedMicros.Read + prevNSInfo.TimeLockedMicros.ReadLower)) 1000
  Write := Int.tdiv (curNSInfo.TimeLockedMicros.Write + curNSInfo.TimeLockedMicros.WriteLower -
    (prevNSInfo.TimeLockedMicros.Write + prevNSInfo.TimeLockedMicros.WriteLower)) 1000

/-- `ServerStatus.Diff`: lock-usage diff of two serverStatus samples
(ranging over a nil map iterates zero times, hence `getD []`). -/
def ServerStatus.Diff (ss : ServerStatus) (previous : ServerStatus) (listCount : Int) : ServerStatusDiff where
  currentServerStatus := ss
  listCount := listCount
  Totals := (previous.Locks.getD []).filterMap fun e =>
    ((ss.Locks.getD []).lookup e.1).map fun c => (e.1, LockStats.delta e.2 c)

/-- Per-database subtraction block of `OperationMetrics.Diff`. -/
def OperationMetricsEntry.delta (prevInfo curInfo : OperationMetricsEntry) : OperationMetricsEntryDelta where
  PrimaryMetrics :=
    ⟨curInfo.PrimaryMetrics.DocBytesRead - prevInfo.PrimaryMetrics.DocBytesRead,
     curInfo.PrimaryMetrics.DocUnitsRead - prevInfo.PrimaryMetrics.DocUnitsRead,
     curInfo.PrimaryMetrics.IndexEntryBytesRead - prevInfo.PrimaryMetrics.IndexEntryBytesRead,
     curInfo.PrimaryMetrics.IndexEntryUnitsRead - prevInfo.PrimaryMetrics.IndexEntryUnitsRead,
     curInfo.PrimaryMetrics.KeysSorted - prevInfo.PrimaryMetrics.KeysSorted,
     curInfo.PrimaryMetrics.SorterSpills - prevInfo.PrimaryMetrics.SorterSpills,
     curInfo.PrimaryMetrics.DocUnitsReturned - prevInfo.PrimaryMetrics.DocUnitsReturned,
     curInfo.PrimaryMetrics.CursorSeeks - prevInfo.PrimaryMetrics.CursorSeeks⟩
  SecondaryMetrics :=
    ⟨curInfo.SecondaryMetrics.DocBytesRead - prevInfo.SecondaryMetrics.DocBytesRead,
     curInfo.SecondaryMetrics.DocUnitsRead - prevInfo.SecondaryMetrics.DocUnitsRead,
     curInfo.SecondaryMetrics.IndexEntryBytesRead - prevInfo.SecondaryMetrics.IndexEntryBytesRead,
     curInfo.SecondaryMetrics.IndexEntryUnitsRead - prevInfo.SecondaryMetrics.IndexEntryUnitsRead,
     curInfo.SecondaryMetrics.KeysSorted - prevInfo.SecondaryMetrics.KeysSorted,
     curInfo.SecondaryMetrics.SorterSpills - prevInfo.SecondaryMetrics.SorterSpills,
     curInfo.SecondaryMetrics.DocUnitsReturned - prevInfo.SecondaryMetrics.DocUnitsReturned,
     curInfo.SecondaryMetrics.CursorSeeks - prevInfo.SecondaryMetrics.CursorSeeks⟩
  DocBytesWritten := curInfo.DocBytesWritten - prevInfo.DocBytesWritten
  DocUnitsWritten := curInfo.DocUnitsWritten - prevInfo.DocUnitsWritten
  IndexEntryBytesWritten := curInfo.IndexEntryBytesWritten - prevInfo.IndexEntryBytesWritten
  IndexEntryUnitsWritten := curInfo.IndexEntryUnitsWritten - prevInfo.IndexEntryUnitsWritten
  CpuNanos := curInfo.CpuNanos - prevInfo.CpuNanos

/-- `OperationMetrics.Diff`: diff of two $operationMetrics samples. -/
def OperationMetrics.Diff (metrics : OperationMetrics) (previous : OperationMetrics)
    (listCount : Int) (sortTotal : Bool) : OperationMetricsDiff where
  numCores := previous.numCores
  elapsed := metrics.time - previous.time
  currentOperation := metrics
  listCount := listCount
  sortTotal := sortTotal
  Totals := previous.Entries.filterMap fun e =>
    (metrics.Entries.lookup e.1).map fun c => (e.1, OperationMetricsEntry.delta e.2 c)

def OperationMetricsEntryDelta.zero : OperationMetricsEntryDelta :=
  ⟨OperationMetricsMemberInfoDelta.mk 0 0 0 0 0 0 0 0,
   OperationMetricsMemberInfoDelta.mk 0 0 0 0 0 0 0 0, 0, 0, 0, 0, 0⟩

def LockDelta.zero : LockDelta := ⟨0, 0⟩

/-- The break-at-listCount loop shared verbatim by the three Grid
renderers: emit the row at index `i`, then stop as soon as the Go
condition `i >= listCount-1` holds. -/
def gridLoop {A : Type} (listCount : Int) (i : Int) : List A → List A
  | [] => []
  | r :: rs => r :: (if listCount - 1 ≤ i then [] else gridLoop listCount (i + 1) rs)

/-- One entry row of `TopDiff.Grid` (the `WriteCells` call of the loop
body); the cell order and suffixes follow the source verbatim. -/
def renderTopRow (td : TopDiff) (st : sortableTotal) : List String :=
  let diff := mapIndex td.Totals st.Name NSTopInfo.zero
  let elapsedMillis := GFloat.ofInt (Int.tdiv td.elapsed 1000000)
  let elapsedSeconds := GFloat.ofInt (Int.tdiv td.elapsed 1000000000)
  [st.Name,
   toString diff.Total.Time ++ "ms",
   GFloat.fmt 1 (((GFloat.ofInt diff.Total.Time).fdiv elapsedMillis).fmul (GFloat.ofInt 100)) ++ "%",
   GFloat.fmt 2 ((((GFloat.ofInt diff.Total.Time).fdiv elapsedMillis).fmul (GFloat.ofInt 100)).fdiv (GFloat.ofInt td.numCores)) ++ "%",
   GFloat.fmt 1 ((GFloat.ofInt diff.Total.Time).fdiv (GFloat.ofInt diff.Total.Count)) ++ "ms/op",
   GFloat.fmt 1 ((GFloat.ofInt diff.Total.Count).fdiv elapsedSeconds) ++ "op/s",
   toString diff.Read.Time ++ "ms",
   GFloat.fmt 1 (((GFloat.ofInt diff.Read.Time).fdiv elapsedMillis).fmul (GFloat.ofInt 100)) ++ "%",
   GFloat.fmt 1 ((GFloat.ofInt diff.Read.Time).fdiv (GFloat.ofInt diff.Read.Count)) ++ "ms/op",
   GFloat.fmt 1 ((GFloat.ofInt diff.Read.Count).fdiv elapsedSeconds) ++ "op/s",
   toString diff.Write.Time ++ "ms",
   GFloat.fmt 1 (((GFloat.ofInt diff.Write.Time).fdiv elapsedMillis).fmul (GFloat.ofInt 100)) ++ "%",
   GFloat.fmt 1 ((GFloat.ofInt diff.Write.Time).fdiv (GFloat.ofInt diff.Write.Count)) ++ "ms/op",
   GFloat.fmt 1 ((GFloat.ofInt diff.Write.Count).fdiv elapsedSeconds) ++ "op/s",
   ""]

/-- `TopDiff.Grid`, modeled as the list of rows of cell strings (column
padding and flushing belong to the external `text.GridWriter`
collaborator); `now` is the formatted wall-clock header timestamp. -/
def TopDiff.Grid (td : TopDiff) (now : String) : List (List String) :=
  let listCount := if td.listCount = 0 then 9 else td.listCount
  let totals := td.Totals.map fun e =>
    if td.sortLatency then
      sortableTotal.mk e.1 ((GFloat.ofInt (e.2).Total.Time).fdiv (GFloat.ofInt (e.2).Total.Count))
        (mapIndex td.currentTop.Totals e.1 NSTopInfo.zero).Total.Time
    else
      sortableTotal.mk e.1 (GFloat.ofInt (e.2).Total.Time)
        (mapIndex td.currentTop.Totals e.1 NSTopInfo.zero).Total.Time
  ["                                              ns", "||TOTAL||", "total %", "total %/core",
   "time/op", "op/s", "||READ||", "read %", "time/op", "op/s", "||WRITE||", "write %",
   "time/op", "op/s", now]
    :: gridLoop listCount 0 ((sortTotals totals).map (renderTopRow td))

/-- One entry row of `OperationMetricsDiff.Grid`. -/
def renderOMRow (od : OperationMetricsDiff) (st : sortableTotal) : List String :=
  let diff := mapIndex od.Totals st.Name OperationMetricsEntryDelta.zero
  let elapsedSeconds := GFloat.ofInt (Int.tdiv od.elapsed 1000000000)
  [st.Name,
   "",
   GFloat.fmt 1 ((GFloat.ofInt diff.TotalDocUnits).fdiv elapsedSeconds) ++ "Units/s",
   GFloat.fmt 1 ((GFloat.ofInt (diff.PrimaryMetrics.DocUnitsRead + diff.SecondaryMetrics.DocUnitsRead)).fdiv elapsedSeconds) ++ "RUnits/s",
   GFloat.fmt 1 ((GFloat.ofInt diff.DocUnitsWritten).fdiv elapsedSeconds) ++ "WUnits/s",
   ""]

/-- `OperationMetricsDiff.Grid`, modeled like `TopDiff.Grid`. -/
def OperationMetricsDiff.Grid (od : OperationMetricsDiff) (now : String) : List (List String) :=
  let listCount := if od.listCount = 0 then 9 else od.listCount
  let totals := od.Totals.map fun e =>
    if od.sortTotal then
      sortableTotal.mk e.1 (GFloat.ofInt (e.2).TotalDocUnits)
        (mapIndex od.currentOperation.Entries e.1 OperationMetricsEntry.zero).TotalDocUnits
    else
      sortableTotal.mk e.1 (GFloat.ofInt (e.2).CpuNanos)
        (mapIndex od.currentOperation.Entries e.1 OperationMetricsEntry.zero).CpuNanos
  ["                                              ns", "||TOTAL||", "total Units/s",
   "total RUnits/s", "total WUnits/s", now]
    :: gridLoop listCount 0 ((sortTotals totals).map (renderOMRow od))

/-- `OperationMetricsDiff.JSON`: JSON rendering is not implemented for
this shape; the source returns this fixed placeholder string. -/
def OperationMetricsDiff.JSON (_od : OperationMetricsDiff) : String :=
  "\x7b\"unsupported\": true\x7d"

/-- One entry row of `ServerStatusDiff.Grid`. -/
def renderSSRow (ssd : ServerStatusDiff) (st : sortableTotal) : List String :=
  let diff := mapIndex ssd.Totals st.Name LockDelta.zero
  [st.Name,
   toString (diff.Read + diff.Write) ++ "ms",
   toString diff.Read ++ "ms",
   toString diff.Write ++ "ms",
   ""]

/-- `ServerStatusDiff.Grid`, modeled like `TopDiff.Grid`. -/
def ServerStatusDiff.Grid (ssd : ServerStatusDiff) (now : String) : List (List String) :=
  let listCount := if ssd.listCount = 0 then 9 else ssd.listCount
  let totals := ssd.Totals.map fun e =>
    let lockStats := mapIndex (ssd.currentServerStatus.Locks.getD []) e.1 LockStats.zero
    sortableTotal.mk e.1 (GFloat.ofInt ((e.2).Read + (e.2).Write))
      (lockStats.TimeLockedMicros.ReadLower + lockStats.TimeLockedMicros.WriteLower)
  ["db", "total", "read", "write", now]
    :: gridLoop listCount 0 ((sortTotals totals).map (renderSSRow ssd))

/-- Mongotop-specific output options. -/
structure Output where
  Locks : Bool
  RowCount : Int
  ListCount : Int
  SortLatency : Bool
  Json : Bool

/-- The `MongoTop` container state read and written by the poll steps:
options plus the previous sample of each shape. -/
structure MongoTop where
  NumCores : Int
  OutputOptions : Output
  previousOperationMetrics : Option OperationMetrics
  previousServerStatus : Option ServerStatus
  previousTop : Option Top

/-- Outcome of the external steps of a top sample attempt: the `top`
command can fail, and each of the three decode steps (looking up
`totals`, re-marshalling without `note`, unmarshalling) can fail. -/
inductive TopFetch where
  | cmdErr : TopFetch
  | lookupErr : TopFetch
  | marshalErr : TopFetch
  | unmarshalErr : TopFetch
  | ok (totals : List (String × NSTopInfo)) : TopFetch

/-- `MongoTop.runTopDiff`, with the external command/decode outcomes and
the sample timestamp as explicit inputs; returns the updated state and
either an error or an optional diff (`none` on the first success). -/
def MongoTop.runTopDiff (mt : MongoTop) (fetch : TopFetch) (now : Int) :
    MongoTop × Except String (Option TopDiff) :=
  match fetch with
  | .cmdErr => ({ mt with previousTop := none }, .error "top command failed")
  | .lookupErr => (mt, .error "totals field missing")
  | .marshalErr => (mt, .error "marshal failed")
  | .unmarshalErr => (mt, .error "unmarshal failed")
  | .ok totals =>
      let currentTop : Top := { numCores := mt.NumCores, time := now, Totals := totals }
      match mt.previousTop with
      | some prev =>
          ({ mt with previousTop := some currentTop },
           .ok (some (currentTop.Diff prev mt.OutputOptions.ListCount mt.OutputOptions.SortLatency)))
      | none => ({ mt with previousTop := some currentTop }, .ok none)

/-- Outcome of the serverStatus command itself. -/
inductive SSFetch where
  | cmdErr : SSFetch
  | ok (status : ServerStatus) : SSFetch

/-- `MongoTop.runServerStatusDiff`: after a successful command, the step
rejects a reply without a `locks` mapping, or with any lock entry whose
`acquireCount` is non-nil, leaving the stored state untouched. -/
def MongoTop.runServerStatusDiff (mt : MongoTop) (fetch : SSFetch) (now : Int) :
    MongoTop × Except String (Option ServerStatusDiff) :=
  match fetch with
  | .cmdErr => ({ mt with previousServerStatus := none }, .error "serverStatus command failed")
  | .ok status =>
      match status.Locks with
      | none => (mt, .error "server does not support reporting lock information")
      | some locks =>
          if locks.any (fun e => (e.2).AcquireCount.isSome) then
            (mt, .error "server does not support reporting lock information")
          else
            let currentServerStatus : ServerStatus := { status with time := now }
            match mt.previousServerStatus with
            | some prev =>
                ({ mt with previousServerStatus := some currentServerStatus },
                 .ok (some (currentServerStatus.Diff prev mt.OutputOptions.ListCount)))
            | none =>
                ({ mt with previousServerStatus := some currentServerStatus }, .ok none)

/-- Outcome of an operation-metrics sample attempt: the aggregate call can
fail; otherwise the cursor yields a sequence of per-row decode outcomes
and possibly a final read error (`cursor.Err`). -/
inductive OMFetch where
  | aggErr : OMFetch
  | ok (rows : List (Except Unit OperationMetricsEntry)) (readErr : Bool) : OMFetch

/-- The cursor loop of `runOperationMetricsDiff`: a decode failure aborts
with no partial result. -/
def collectOMEntries : List (Except Unit OperationMetricsEntry) →
    List (String × OperationMetricsEntry) → Except String (List (String × OperationMetricsEntry))
  | [], acc => .ok acc
  | .error _ :: _, _ => .error "failure decoding from cursor"
  | .ok e :: rest, acc => collectOMEntries rest (mapInsert e.DBName e acc)

/-- `MongoTop.runOperationMetricsDiff`, with the external outcomes as
explicit inputs. -/
def MongoTop.runOperationMetricsDiff (mt : MongoTop) (fetch : OMFetch) (now : Int) :
    MongoTop × Except String (Option OperationMetricsDiff) :=
  match fetch with
  | .aggErr => ({ mt with previousOperationMetrics := none }, .error "aggregate failed")
  | .ok rows readErr =>
      match collectOMEntries rows [] with
      | .error e => (mt, .error e)
      | .ok entries =>
          if readErr then (mt, .error "failure reading from cursor")
          else
            let currentOperationMetrics : OperationMetrics :=
              { numCores := mt.NumCores, time := now, Entries := entries }
            match mt.previousOperationMetrics with
            | some prev =>
                ({ mt with previousOperationMetrics := some currentOperationMetrics },
                 .ok (some (currentOperationMetrics.Diff prev mt.OutputOptions.ListCount mt.OutputOptions.SortLatency)))
            | none =>
                ({ mt with previousOperationMetrics := some currentOperationMetrics }, .ok none)

/-- True exactly on `Except.error`. -/
def isErr {E A : Type} : Except E A → Bool
  | .error _ => true
  | .ok _ => false

/-- Key lookup in the inner-join delta map built by the three `Diff`
functions: the delta for `k` is present exactly when `k` is present in
both snapshots, and then equals the delta of the two looked-up records. -/
theorem lookup_diffTotals {A B : Type} (g : A → A → B) (cur prev : List (String × A)) (k : String) :
    ((prev.filterMap fun e => (cur.lookup e.1).map fun c => (e.1, g e.2 c)).lookup k)
      = (prev.lookup k).bind fun p => (cur.lookup k).map fun c => g p c := by
  induction prev with
  | nil => rfl
  | cons e rest ih =>
      obtain ⟨k2, p⟩ := e
      by_cases hk : k = k2
      · subst hk
        cases hc : cur.lookup k with
        | none =>
            simp only [List.filterMap_cons, hc, Option.map_none', List.lookup_cons,
              beq_self_eq_true]
            rw [ih]
            cases rest.lookup k <;> simp [hc]
        | some c =>
            simp [List.filterMap_cons, hc, List.lookup_cons]
      · have hbeq : (k == k2) = false := beq_eq_false_iff_ne.mpr hk
        cases hc : cur.lookup k2 with
        | none =>
            simp only [List.filterMap_cons, hc, Option.map_none', List.lookup_cons, hbeq]
            exact ih
        | some c =>
            simp only [List.filterMap_cons, hc, Option.map_some', List.lookup_cons, hbeq]
            exact ih

/-- Claim C1: for every pair of snapshots of the same shape, the diff's
Totals map contains exactly the entity keys present in both the current
and the previous snapshot; a key present in only one snapshot never
appears (it is dropped, not treated as zero). -/
theorem c1_diff_inner_join :
    (∀ (top previous : Top) (lc : Int) (sl : Bool) (ns : String),
      ((top.Diff previous lc sl).Totals.lookup ns).isSome
        = ((previous.Totals.lookup ns).isSome && (top.Totals.lookup ns).isSome))
    ∧ (∀ (ss previous : ServerStatus) (lc : Int) (ns : String),
      ((ss.Diff previous lc).Totals.lookup ns).isSome
        = (((previous.Locks.getD []).lookup ns).isSome && ((ss.Locks.getD []).lookup ns).isSome))
    ∧ (∀ (metrics previous : OperationMetrics) (lc : Int) (st : Bool) (ns : String),
      ((metrics.Diff previous lc st).Totals.lookup ns).isSome
        = ((previous.Entries.lookup ns).isSome && (metrics.Entries.lookup ns).isSome)) := by
  refine ⟨fun top previous lc sl ns => ?_, fun ss previous lc ns => ?_,
    fun metrics previous lc st ns => ?_⟩
  · show ((previous.Totals.filterMap fun e =>
        (top.Totals.lookup e.1).map fun c => (e.1, NSTopInfo.delta e.2 c)).lookup ns).isSome = _
    rw [lookup_diffTotals NSTopInfo.delta top.Totals previous.Totals ns]
    cases previous.Totals.lookup ns <;> cases top.Totals.lookup ns <;> rfl
  · show (((previous.Locks.getD []).filterMap fun e =>
        ((ss.Locks.getD []).lookup e.1).map fun c => (e.1, LockStats.delta e.2 c)).lookup ns).isSome = _
    rw [lookup_diffTotals LockStats.delta (ss.Locks.getD []) (previous.Locks.getD []) ns]
    cases (previous.Locks.getD []).lookup ns <;> cases (ss.Locks.getD []).lookup ns <;> rfl
  · show ((previous.Entries.filterMap fun e =>
        (metrics.Entries.lookup e.1).map fun c => (e.1, OperationMetricsEntry.delta e.2 c)).lookup ns).isSome = _
    rw [lookup_diffTotals OperationMetricsEntry.delta metrics.Entries previous.Entries ns]
    cases previous.Entries.lookup ns <;> cases metrics.Entries.lookup ns <;> rfl

/-- Claim C2: for every entity key present in both snapshots, a
namespace-top diff carries Time deltas truncated-divided by 1000
(microseconds to milliseconds) and plain Count differences, and a
lock-usage diff carries the difference of the summed upper- and
lower-case timeLockedMicros fields truncated-divided by 1000; the deltas
are signed differences, never clamped at zero. -/
theorem c2_delta_formulas :
    (∀ (top previous : Top) (lc : Int) (sl : Bool) (ns : String) (p c : NSTopInfo),
      previous.Totals.lookup ns = some p → top.Totals.lookup ns = some c →
      (top.Diff previous lc sl).Totals.lookup ns = some
        { Total := ⟨Int.tdiv (c.Total.Time - p.Total.Time) 1000, c.Total.Count - p.Total.Count⟩,
          Read := ⟨Int.tdiv (c.Read.Time - p.Read.Time) 1000, c.Read.Count - p.Read.Count⟩,
          Write := ⟨Int.tdiv (c.Write.Time - p.Write.Time) 1000, c.Write.Count - p.Write.Count⟩ })
    ∧ (∀ (ss previous : ServerStatus) (lc : Int) (ns : String) (p c : LockStats),
      (previous.Locks.getD []).lookup ns = some p → (ss.Locks.getD []).lookup ns = some c →
      (ss.Diff previous lc).Totals.lookup ns = some
        { Read := Int.tdiv (c.TimeLockedMicros.Read + c.TimeLockedMicros.ReadLower -
            (p.TimeLockedMicros.Read + p.TimeLockedMicros.ReadLower)) 1000,
          Write := Int.tdiv (c.TimeLockedMicros.Write + c.TimeLockedMicros.WriteLower -
            (p.TimeLockedMicros.Write + p.TimeLockedMicros.WriteLower)) 1000 }) := by
  constructor
  · intro top previous lc sl ns p c hp hc
    show (previous.Totals.filterMap fun e =>
        (top.Totals.lookup e.1).map fun c => (e.1, NSTopInfo.delta e.2 c)).lookup ns = _
    rw [lookup_diffTotals NSTopInfo.delta top.Totals previous.Totals ns, hp, hc]
    rfl
  · intro ss previous lc ns p c hp hc
    show ((previous.Locks.getD []).filterMap fun e =>
        ((ss.Locks.getD []).lookup e.1).map fun c => (e.1, LockStats.delta e.2 c)).lookup ns = _
    rw [lookup_diffTotals LockStats.delta (ss.Locks.getD []) (previous.Locks.getD []) ns, hp, hc]
    rfl

/-- Witness for C2 at concrete snapshots whose counters went backwards:
the namespace-top delta is `-2` milliseconds (truncated from `-2000`
microseconds) with count delta `5`, and the lock deltas are `-4` and `-5`
milliseconds -- signed, not clamped. -/
theorem c2_delta_formulas_witness :
    ((Top.mk 1 2000000000 [("db.coll", NSTopInfo.mk ⟨1000, 15⟩ ⟨0, 0⟩ ⟨0, 0⟩)]).Diff
        (Top.mk 1 0 [("db.coll", NSTopInfo.mk ⟨3000, 10⟩ ⟨0, 0⟩ ⟨0, 0⟩)]) 0 false).Totals.lookup "db.coll"
      = some (NSTopInfo.mk ⟨-2, 5⟩ ⟨0, 0⟩ ⟨0, 0⟩)
    ∧ ((ServerStatus.mk 9 (some [("db", LockStats.mk none ⟨1000, 2000, 500, 500⟩ ReadWriteLockTimes.zero)])).Diff
        (ServerStatus.mk 0 (some [("db", LockStats.mk none ⟨5000, 7000, 1000, 500⟩ ReadWriteLockTimes.zero)])) 0).Totals.lookup "db"
      = some (LockDelta.mk (-4) (-5)) := by
  constructor
  · have h := c2_delta_formulas.1
      (Top.mk 1 2000000000 [("db.coll", NSTopInfo.mk ⟨1000, 15⟩ ⟨0, 0⟩ ⟨0, 0⟩)])
      (Top.mk 1 0 [("db.coll", NSTopInfo.mk ⟨3000, 10⟩ ⟨0, 0⟩ ⟨0, 0⟩)])
      0 false "db.coll" _ _ rfl rfl
    exact h
  · have h := c2_delta_formulas.2
      (ServerStatus.mk 9 (some [("db", LockStats.mk none ⟨1000, 2000, 500, 500⟩ ReadWriteLockTimes.zero)]))
      (ServerStatus.mk 0 (some [("db", LockStats.mk none ⟨5000, 7000, 1000, 500⟩ ReadWriteLockTimes.zero)]))
      0 "db" _ _ rfl rfl
    exact h

/-- Claim C9: the JSON rendering of an operation-metrics diff is the
fixed placeholder document, for every diff, and never fails. -/
theorem c9_json_sentinel :
    ∀ od : OperationMetricsDiff, od.JSON = "\x7b\"unsupported\": true\x7d" :=
  fun _ => rfl

/-- Claim C7: when the serverStatus command succeeds, the lock-usage
sampling step returns an error exactly when the decoded reply has no
locks mapping, or some lock entry carries a non-nil acquireCount. -/
theorem c7_lock_decode_errors :
    ∀ (mt : MongoTop) (st : ServerStatus) (now : Int),
      isErr (mt.runServerStatusDiff (SSFetch.ok st) now).2
        = (st.Locks.isNone || (st.Locks.getD []).any fun e => (e.2).AcquireCount.isSome) := by
  intro mt st now
  cases hL : st.Locks with
  | none => simp [MongoTop.runServerStatusDiff, hL, isErr]
  | some locks =>
      cases hA : locks.any fun e => (e.2).AcquireCount.isSome with
      | true => simp [MongoTop.runServerStatusDiff, hL, hA, isErr]
      | false =>
          cases hP : mt.previousServerStatus <;>
            simp [MongoTop.runServerStatusDiff, hL, hA, hP, isErr]

/-- Counterexample to claim C5 as stated: a decode failure (missing
`totals` field) on a top sample attempt after a prior success returns an
error but leaves the stored previous sample in place -- it is not reset
to nil. -/
theorem c5_reset_counterexample :
    ((MongoTop.mk 4 (Output.mk false 0 0 false false) none none
        (some (Top.mk 4 0 []))).runTopDiff TopFetch.lookupErr 7).1.previousTop
      = some (Top.mk 4 0 [])
    ∧ isErr ((MongoTop.mk 4 (Output.mk false 0 0 false false) none none
        (some (Top.mk 4 0 []))).runTopDiff TopFetch.lookupErr 7).2 = true :=
  ⟨rfl, rfl⟩

/-- Claim C5 as amended: only a failure of the server command itself
(`RunString` for top, `Aggregate` for operation metrics) resets the
stored previous-sample state to nil; the decode failures (missing totals
field, marshal and unmarshal errors, cursor decode and cursor read
errors) return an error while leaving the state unchanged; after a
reset, the next successful sample produces no diff. -/
theorem c5_reset_amended :
    (∀ (mt : MongoTop) (now : Int),
      (mt.runTopDiff TopFetch.cmdErr now).1.previousTop = none
      ∧ isErr (mt.runTopDiff TopFetch.cmdErr now).2 = true)
    ∧ (∀ (mt : MongoTop) (now : Int),
      (mt.runTopDiff TopFetch.lookupErr now).1 = mt
      ∧ (mt.runTopDiff TopFetch.marshalErr now).1 = mt
      ∧ (mt.runTopDiff TopFetch.unmarshalErr now).1 = mt
      ∧ isErr (mt.runTopDiff TopFetch.lookupErr now).2 = true
      ∧ isErr (mt.runTopDiff TopFetch.marshalErr now).2 = true
      ∧ isErr (mt.runTopDiff TopFetch.unmarshalErr now).2 = true)
    ∧ (∀ (mt : MongoTop) (now : Int),
      (mt.runOperationMetricsDiff OMFetch.aggErr now).1.previousOperationMetrics = none
      ∧ isErr (mt.runOperationMetricsDiff OMFetch.aggErr now).2 = true)
    ∧ (∀ (mt : MongoTop) (rows : List (Except Unit OperationMetricsEntry)) (readErr : Bool) (now : Int),
      isErr (mt.runOperationMetricsDiff (OMFetch.ok rows readErr) now).2 = true →
      (mt.runOperationMetricsDiff (OMFetch.ok rows readErr) now).1 = mt)
    ∧ (∀ (mt : MongoTop) (totals : List (String × NSTopInfo)) (now : Int),
      mt.previousTop = none →
      (mt.runTopDiff (TopFetch.ok totals) now).2 = Except.ok none) := by
  refine ⟨fun mt now => ⟨rfl, rfl⟩, fun mt now => ⟨rfl, rfl, rfl, rfl, rfl, rfl⟩,
    fun mt now => ⟨rfl, rfl⟩, fun mt rows readErr now h => ?_, fun mt totals now h => ?_⟩
  · simp only [MongoTop.runOperationMetricsDiff] at h ⊢
    cases hc : collectOMEntries rows [] with
    | error e => simp [hc]
    | ok entries =>
        cases hr : readErr with
        | true => simp
        | false =>
            exfalso
            cases hP : mt.previousOperationMetrics <;> rw [hP] at h <;> simp [isErr, hc, hr] at h
  · simp only [MongoTop.runTopDiff, h]

/-- Witness for C5 as amended, at concrete states: a command failure
clears the previous top sample; a cursor decode failure leaves the state
untouched; a success with no previous sample yields no diff. -/
theorem c5_reset_amended_witness :
    ((MongoTop.mk 1 (Output.mk false 0 0 false false) none none
        (some (Top.mk 1 0 []))).runTopDiff TopFetch.cmdErr 3).1.previousTop = none
    ∧ ((MongoTop.mk 1 (Output.mk false 0 0 false false)
          (some (OperationMetrics.mk 1 0 [])) none none).runOperationMetricsDiff
            (OMFetch.ok [Except.error ()] false) 3).1
        = MongoTop.mk 1 (Output.mk false 0 0 false false)
            (some (OperationMetrics.mk 1 0 [])) none none
    ∧ ((MongoTop.mk 1 (Output.mk false 0 0 false false) none none none).runTopDiff
        (TopFetch.ok []) 3).2 = Except.ok none :=
  ⟨(c5_reset_amended.1 _ 3).1,
   c5_reset_amended.2.2.2.1 _ [Except.error ()] false 3 rfl,
   c5_reset_amended.2.2.2.2 _ [] 3 rfl⟩

/-- On non-NaN floats, IEEE equality agrees with equality of the model. -/
theorem GFloat.feq_iff_eq (a b : GFloat) (ha : a.isNaN = false) (hb : b.isNaN = false) :
    (a.feq b = true ↔ a = b) := by
  cases a <;> cases b <;> simp_all [GFloat.isNaN, GFloat.feq]

/-- IEEE `<` is irreflexive (also on NaN, where it is always false). -/
theorem GFloat.flt_irrefl (a : GFloat) : a.flt a = false := by
  cases a <;> simp [GFloat.flt]

/-- IEEE `<` is asymmetric. -/
theorem GFloat.flt_asymm (a b : GFloat) (h : a.flt b = true) : b.flt a = false := by
  cases a <;> cases b <;> simp_all [GFloat.flt] <;> exact le_of_lt h

/-- IEEE `<` is transitive. -/
theorem GFloat.flt_trans (a b c : GFloat) (h1 : a.flt b = true) (h2 : b.flt c = true) :
    a.flt c = true := by
  cases a <;> cases b <;> cases c <;> simp_all [GFloat.flt] <;> linarith

/-- IEEE `<` is connected on distinct non-NaN floats. -/
theorem GFloat.flt_connected (a b : GFloat) (ha : a.isNaN = false) (hb : b.isNaN = false)
    (hne : a ≠ b) : a.flt b = true ∨ b.flt a = true := by
  cases a <;> cases b <;> simp_all [GFloat.flt, GFloat.isNaN] <;> exact lt_or_gt_of_ne hne

/-- Go string comparison is irreflexive. -/
theorem charListLt_irrefl : ∀ l : List Char, charListLt l l = false := by
  intro l
  induction l with
  | nil => rfl
  | cons c r ih => simp [charListLt, ih]

/-- Go string comparison is asymmetric. -/
theorem charListLt_asymm : ∀ a b : List Char, charListLt a b = true → charListLt b a = false := by
  intro a
  induction a with
  | nil =>
      intro b h
      cases b with
      | nil => simp [charListLt] at h
      | cons c r => rfl
  | cons c1 r1 ih =>
      intro b h
      cases b with
      | nil => simp [charListLt] at h
      | cons c2 r2 =>
          by_cases h12 : c1 < c2
          · simp [charListLt, h12, lt_asymm h12]
          · by_cases h21 : c2 < c1
            · simp [charListLt, h12, h21] at h
            · simp only [charListLt, if_neg h12, if_neg h21] at h
              simp [charListLt, h12, h21, ih r2 h]

/-- Go string comparison is transitive. -/
theorem charListLt_trans :
    ∀ a b c : List Char, charListLt a b = true → charListLt b c = true →
      charListLt a c = true := by
  intro a
  induction a with
  | nil =>
      intro b c h1 h2
      cases c with
      | nil =>
          cases b with
          | nil => simp [charListLt] at h1
          | cons c2 r2 => simp [charListLt] at h2
      | cons c3 r3 => rfl
  | cons c1 r1 ih =>
      intro b c h1 h2
      cases b with
      | nil => simp [charListLt] at h1
      | cons c2 r2 =>
          cases c with
          | nil => simp [charListLt] at h2
          | cons c3 r3 =>
              by_cases h12 : c1 < c2
              · by_cases h23 : c2 < c3
                · simp [charListLt, lt_trans h12 h23]
                · by_cases h32 : c3 < c2
                  · simp [charListLt, h23, h32] at h2
                  · have e : c2 = c3 := le_antisymm (not_lt.mp h32) (not_lt.mp h23)
                    subst e
                    simp [charListLt, h12]
              · by_cases h21 : c2 < c1
                · simp [charListLt, h12, h21] at h1
                · have e : c1 = c2 := le_antisymm (not_lt.mp h21) (not_lt.mp h12)
                  subst e
                  simp only [charListLt, if_neg h12, if_neg h21] at h1
                  by_cases h23 : c1 < c3
                  · simp [charListLt, h23]
                  · by_cases h32 : c3 < c1
                    · simp [charListLt, h23, h32] at h2
                    · simp only [charListLt, if_neg h23, if_neg h32] at h2 ⊢
                      exact ih r2 r3 h1 h2

/-- Go string comparison is connected on distinct strings. -/
theorem charListLt_connected :
    ∀ a b : List Char, a ≠ b → charListLt a b = true ∨ charListLt b a = true := by
  intro a
  induction a with
  | nil =>
      intro b hne
      cases b with
      | nil => exact absurd rfl hne
      | cons c r => exact Or.inl rfl
  | cons c1 r1 ih =>
      intro b hne
      cases b with
      | nil => exact Or.inr rfl
      | cons c2 r2 =>
          by_cases h12 : c1 < c2
          · exact Or.inl (by simp [charListLt, h12])
          · by_cases h21 : c2 < c1
            · exact Or.inr (by simp [charListLt, h21])
            · have e : c1 = c2 := le_antisymm (not_lt.mp h21) (not_lt.mp h12)
              subst e
              have hr : r1 ≠ r2 := fun h => hne (by rw [h])
              rcases ih r2 hr with h | h
              · exact Or.inl (by simp [charListLt, h12, h21, h])
              · exact Or.inr (by simp [charListLt, h12, h21, h])

theorem goStrLt_irrefl (s : String) : goStrLt s s = false :=
  charListLt_irrefl s.data

theorem goStrLt_asymm (a b : String) (h : goStrLt a b = true) : goStrLt b a = false :=
  charListLt_asymm a.data b.data h

theorem goStrLt_trans (a b c : String) (h1 : goStrLt a b = true) (h2 : goStrLt b c = true) :
    goStrLt a c = true :=
  charListLt_trans a.data b.data c.data h1 h2

theorem goStrLt_connected (a b : String) (hne : a ≠ b) :
    goStrLt a b = true ∨ goStrLt b a = true := by
  refine charListLt_connected a.data b.data fun h => hne ?_
  cases a
  cases b
  exact congrArg String.mk h

/-- With both metrics non-NaN the three defensive NaN branches of the
comparator fall away, leaving the lexicographic body. -/
theorem Less_of_notNaN (x y : sortableTotal) (hx : x.Total.isNaN = false)
    (hy : y.Total.isNaN = false) :
    sortableTotal.Less x y
      = (if x.Total.feq y.Total then
          (if decide (x.Current = y.Current) then goStrLt y.Name x.Name
           else decide (x.Current < y.Current))
         else x.Total.flt y.Total) := by
  unfold sortableTotal.Less
  rw [hx, hy]
  simp

/-- Propositional characterization of the comparator on non-NaN entries:
a strict lexicographic comparison of (Total, Current, Name reversed). -/
theorem Less_iff (x y : sortableTotal) (hx : x.Total.isNaN = false)
    (hy : y.Total.isNaN = false) :
    sortableTotal.Less x y = true ↔
      (x.Total.flt y.Total = true
        ∨ (x.Total = y.Total
            ∧ (x.Current < y.Current
              ∨ (x.Current = y.Current ∧ goStrLt y.Name x.Name = true)))) := by
  rw [Less_of_notNaN x y hx hy]
  by_cases hfeq : x.Total.feq y.Total = true
  · have e : x.Total = y.Total := (GFloat.feq_iff_eq _ _ hx hy).mp hfeq
    rw [if_pos hfeq]
    by_cases hcur : x.Current = y.Current
    · rw [if_pos (decide_eq_true hcur)]
      simp [e, hcur, GFloat.flt_irrefl]
    · rw [if_neg (by simp [hcur])]
      simp [e, hcur, GFloat.flt_irrefl]
  · have hne : x.Total ≠ y.Total := fun e => hfeq ((GFloat.feq_iff_eq _ _ hx hy).mpr e)
    rw [if_neg hfeq]
    simp [hne]

/-- The comparator is irreflexive on non-NaN entries (helper for C4). -/
theorem Less_irrefl (x : sortableTotal) (hx : x.Total.isNaN = false) :
    sortableTotal.Less x x = false := by
  rw [← Bool.not_eq_true, Less_iff x x hx hx]
  rintro (h | ⟨-, h | ⟨-, h⟩⟩)
  · rw [GFloat.flt_irrefl] at h; exact Bool.false_ne_true h
  · exact lt_irrefl _ h
  · rw [goStrLt_irrefl] at h; exact Bool.false_ne_true h

/-- The comparator is asymmetric on non-NaN entries (helper for C4). -/
theorem Less_asymm (x y : sortableTotal) (hx : x.Total.isNaN = false)
    (hy : y.Total.isNaN = false) (h : sortableTotal.Less x y = true) :
    sortableTotal.Less y x = false := by
  rw [Less_iff x y hx hy] at h
  rw [← Bool.not_eq_true, Less_iff y x hy hx]
  rcases h with h | ⟨he, hc⟩
  · rintro (h2 | ⟨he2, -⟩)
    · rw [GFloat.flt_asymm _ _ h] at h2; exact Bool.false_ne_true h2
    · rw [he2, GFloat.flt_irrefl] at h; exact Bool.false_ne_true h
  · rintro (h2 | ⟨-, hc2⟩)
    · rw [he, GFloat.flt_irrefl] at h2; exact Bool.false_ne_true h2
    · rcases hc with hlt | ⟨hceq, hn⟩ <;> rcases hc2 with hlt2 | ⟨hceq2, hn2⟩
      · exact lt_asymm hlt hlt2
      · exact absurd hceq2.symm (ne_of_lt hlt)
      · exact absurd hceq (ne_of_gt hlt2)
      · rw [goStrLt_asymm _ _ hn] at hn2; exact Bool.false_ne_true hn2

/-- The comparator is transitive on non-NaN entries (helper for C4). -/
theorem Less_trans (x y z : sortableTotal) (hx : x.Total.isNaN = false)
    (hy : y.Total.isNaN = false) (hz : z.Total.isNaN = false)
    (h1 : sortableTotal.Less x y = true) (h2 : sortableTotal.Less y z = true) :
    sortableTotal.Less x z = true := by
  rw [Less_iff x y hx hy] at h1
  rw [Less_iff y z hy hz] at h2
  rw [Less_iff x z hx hz]
  rcases h1 with h1 | ⟨he1, hc1⟩
  · rcases h2 with h2 | ⟨he2, -⟩
    · exact Or.inl (GFloat.flt_trans _ _ _ h1 h2)
    · rw [he2] at h1; exact Or.inl h1
  · rcases h2 with h2 | ⟨he2, hc2⟩
    · rw [← he1] at h2; exact Or.inl h2
    · refine Or.inr ⟨he1.trans he2, ?_⟩
      rcases hc1 with hlt1 | ⟨hceq1, hn1⟩ <;> rcases hc2 with hlt2 | ⟨hceq2, hn2⟩
      · exact Or.inl (lt_trans hlt1 hlt2)
      · rw [← hceq2]; exact Or.inl hlt1
      · rw [hceq1]; exact Or.inl hlt2
      · exact Or.inr ⟨hceq1.trans hceq2, goStrLt_trans _ _ _ hn2 hn1⟩

/-- The comparator is connected on distinct non-NaN entries (helper). -/
theorem Less_connected (x y : sortableTotal) (hx : x.Total.isNaN = false)
    (hy : y.Total.isNaN = false) (hne : x ≠ y) :
    sortableTotal.Less x y = true ∨ sortableTotal.Less y x = true := by
  rw [Less_iff x y hx hy, Less_iff y x hy hx]
  by_cases he : x.Total = y.Total
  · by_cases hc : x.Current = y.Current
    · have hn : x.Name ≠ y.Name := by
        intro hname
        apply hne
        obtain ⟨n1, t1, c1⟩ := x
        obtain ⟨n2, t2, c2⟩ := y
        simp_all
      rcases goStrLt_connected x.Name y.Name hn with h | h
      · exact Or.inr (Or.inr ⟨he.symm, Or.inr ⟨hc.symm, h⟩⟩)
      · exact Or.inl (Or.inr ⟨he, Or.inr ⟨hc, h⟩⟩)
    · rcases lt_or_gt_of_ne hc with h | h
      · exact Or.inl (Or.inr ⟨he, Or.inl h⟩)
      · exact Or.inr (Or.inr ⟨he.symm, Or.inl h⟩)
  · rcases GFloat.flt_connected _ _ hx hy he with h | h
    · exact Or.inl (Or.inl h)
    · exact Or.inr (Or.inl h)

/-- `ordInsert` permutes the element onto the list. -/
theorem perm_ordInsert {A : Type} (le : A → A → Bool) (x : A) :
    ∀ s : List A, List.Perm (ordInsert le x s) (x :: s) := by
  intro s
  induction s with
  | nil => exact List.Perm.refl _
  | cons y ys ih =>
      by_cases h : le x y = true
      · rw [ordInsert, if_pos h]
      · rw [ordInsert, if_neg h]
        exact (List.Perm.cons y ih).trans (List.Perm.swap x y ys)

/-- The sort model is a permutation of its input. -/
theorem perm_insSort {A : Type} (le : A → A → Bool) :
    ∀ l : List A, List.Perm (insSort le l) l := by
  intro l
  induction l with
  | nil => exact List.Perm.refl _
  | cons x xs ih =>
      exact (perm_ordInsert le x (insSort le xs)).trans (List.Perm.cons x ih)

/-- A NaN-metric entry is `Less` than anything (branches 2 and 3 of the
comparator). -/
theorem Less_nan_left (x y : sortableTotal) (hx : x.Total.isNaN = true) :
    sortableTotal.Less x y = true := by
  unfold sortableTotal.Less
  rw [hx]
  cases hy : y.Total.isNaN <;> simp

/-- A non-NaN entry is never `Less` than a NaN entry (branch 1). -/
theorem Less_notNan_nan (x y : sortableTotal) (hx : x.Total.isNaN = false)
    (hy : y.Total.isNaN = true) : sortableTotal.Less x y = false := by
  unfold sortableTotal.Less
  rw [hx, hy]
  simp

/-- Inserting with the reversed comparator preserves the invariant that
no NaN entry precedes a non-NaN entry. -/
theorem nanLast_ordInsert (x : sortableTotal) :
    ∀ s : List sortableTotal,
      s.Pairwise (fun u v => u.Total.isNaN = true → v.Total.isNaN = true) →
      (ordInsert (fun a b => !(sortableTotal.Less a b)) x s).Pairwise
        (fun u v => u.Total.isNaN = true → v.Total.isNaN = true) := by
  intro s
  induction s with
  | nil =>
      intro _
      simp [ordInsert]
  | cons y ys ih =>
      intro hp
      rw [List.pairwise_cons] at hp
      obtain ⟨hy, hys⟩ := hp
      by_cases hle : (!(sortableTotal.Less x y)) = true
      · rw [ordInsert, if_pos hle]
        have hxnan : x.Total.isNaN = false := by
          cases hnan : x.Total.isNaN with
          | false => rfl
          | true =>
              rw [Less_nan_left x y hnan] at hle
              simp at hle
        rw [List.pairwise_cons]
        refine ⟨fun v _ hv => absurd hv (by rw [hxnan]; exact Bool.false_ne_true), ?_⟩
        rw [List.pairwise_cons]
        exact ⟨hy, hys⟩
      · rw [ordInsert, if_neg hle]
        rw [List.pairwise_cons]
        refine ⟨fun v hv hynan => ?_, ih hys⟩
        have hv2 := (perm_ordInsert _ x ys).mem_iff.mp hv
        rcases List.mem_cons.mp hv2 with hvx | hvys
        · subst hvx
          cases hnan : v.Total.isNaN with
          | true => rfl
          | false =>
              rw [Less_notNan_nan v y hnan hynan] at hle
              simp at hle
        · exact hy v hvys hynan

/-- Claim C3 as amended: in the ranked output no NaN-metric entry ever
precedes a non-NaN one -- the comparator ranks NaN below everything and
the displayed order is descending, so NaN entries surface last. -/
theorem c3_nan_sorts_last :
    ∀ l : List sortableTotal,
      (sortTotals l).Pairwise (fun u v => u.Total.isNaN = true → v.Total.isNaN = true) := by
  intro l
  induction l with
  | nil => simp [sortTotals, insSort]
  | cons x xs ih => exact nanLast_ordInsert x _ ih

/-- Counterexample to claim C3 as stated: in a rendered latency-sorted
grid, the entry `a` whose primary metric is NaN (0 time over 0 ops)
surfaces after the non-NaN entry `b`, not before it. -/
theorem c3_nan_first_counterexample :
    ((TopDiff.mk 1 0 (Top.mk 1 0 []) 0 true
        [("a", NSTopInfo.mk ⟨0, 0⟩ ⟨0, 0⟩ ⟨0, 0⟩),
         ("b", NSTopInfo.mk ⟨5, 1⟩ ⟨0, 0⟩ ⟨0, 0⟩)]).Grid "t").tail.map (fun r => r.headD "")
      = ["b", "a"]
    ∧ ((GFloat.ofInt 0).fdiv (GFloat.ofInt 0)).isNaN = true
    ∧ ((GFloat.ofInt 5).fdiv (GFloat.ofInt 1)).isNaN = false := by
  refine ⟨by decide, by decide, by decide⟩

/-- Two-element ranking shape used by the directional conjuncts of C4. -/
theorem pair_sort (x y : sortableTotal) (h1 : sortableTotal.Less x y = false)
    (h2 : sortableTotal.Less y x = true) :
    sortTotals [x, y] = [x, y] ∧ sortTotals [y, x] = [x, y] := by
  constructor
  · simp [sortTotals, insSort, ordInsert, h1]
  · simp [sortTotals, insSort, ordInsert, h1, h2]

/-- Counterexample to claim C4 as stated: the comparator is not
irreflexive on a NaN entry (so not a total order over all entries), and
two entries fully tied except for their keys rank in ascending, not
descending, lexicographic key order. -/
theorem c4_counterexample :
    sortableTotal.Less (sortableTotal.mk "x" GFloat.nan 0) (sortableTotal.mk "x" GFloat.nan 0) = true
    ∧ sortTotals [sortableTotal.mk "b" (GFloat.finite 5) 7, sortableTotal.mk "a" (GFloat.finite 5) 7]
        = [sortableTotal.mk "a" (GFloat.finite 5) 7, sortableTotal.mk "b" (GFloat.finite 5) 7]
    ∧ sortTotals [sortableTotal.mk "a" (GFloat.finite 5) 7, sortableTotal.mk "b" (GFloat.finite 5) 7]
        = [sortableTotal.mk "a" (GFloat.finite 5) 7, sortableTotal.mk "b" (GFloat.finite 5) 7] := by
  refine ⟨by decide, by decide, by decide⟩

/-- Claim C4 as amended: restricted to entries whose primary metric is
not NaN, the comparator is a strict total order (irreflexive,
asymmetric, transitive, connected); re-ranking is deterministic; the
output is descending by primary metric, a tie is broken by the larger
current-snapshot value first, and a remaining tie by entity key in
ascending (not descending) lexicographic order. -/
theorem c4_ranking_amended :
    (∀ x : sortableTotal, x.Total.isNaN = false → sortableTotal.Less x x = false)
    ∧ (∀ x y : sortableTotal, x.Total.isNaN = false → y.Total.isNaN = false →
        sortableTotal.Less x y = true → sortableTotal.Less y x = false)
    ∧ (∀ x y z : sortableTotal, x.Total.isNaN = false → y.Total.isNaN = false →
        z.Total.isNaN = false → sortableTotal.Less x y = true →
        sortableTotal.Less y z = true → sortableTotal.Less x z = true)
    ∧ (∀ x y : sortableTotal, x.Total.isNaN = false → y.Total.isNaN = false → x ≠ y →
        sortableTotal.Less x y = true ∨ sortableTotal.Less y x = true)
    ∧ (∀ l : List sortableTotal, sortTotals l = sortTotals l)
    ∧ (∀ x y : sortableTotal, x.Total.isNaN = false → y.Total.isNaN = false →
        y.Total.flt x.Total = true →
        sortTotals [x, y] = [x, y] ∧ sortTotals [y, x] = [x, y])
    ∧ (∀ x y : sortableTotal, x.Total.isNaN = false → y.Total.isNaN = false →
        x.Total.feq y.Total = true → y.Current < x.Current →
        sortTotals [x, y] = [x, y] ∧ sortTotals [y, x] = [x, y])
    ∧ (∀ x y : sortableTotal, x.Total.isNaN = false → y.Total.isNaN = false →
        x.Total.feq y.Total = true → x.Current = y.Current → goStrLt x.Name y.Name = true →
        sortTotals [x, y] = [x, y] ∧ sortTotals [y, x] = [x, y]) := by
  refine ⟨Less_irrefl, Less_asymm, Less_trans, Less_connected, fun l => rfl, ?_, ?_, ?_⟩
  · intro x y hx hy hflt
    have h2 : sortableTotal.Less y x = true := by
      rw [Less_iff y x hy hx]; exact Or.inl hflt
    exact pair_sort x y (Less_asymm y x hy hx h2) h2
  · intro x y hx hy hfeq hcur
    have he : x.Total = y.Total := (GFloat.feq_iff_eq _ _ hx hy).mp hfeq
    have h2 : sortableTotal.Less y x = true := by
      rw [Less_iff y x hy hx]; exact Or.inr ⟨he.symm, Or.inl hcur⟩
    exact pair_sort x y (Less_asymm y x hy hx h2) h2
  · intro x y hx hy hfeq hcur hname
    have he : x.Total = y.Total := (GFloat.feq_iff_eq _ _ hx hy).mp hfeq
    have h2 : sortableTotal.Less y x = true := by
      rw [Less_iff y x hy hx]; exact Or.inr ⟨he.symm, Or.inr ⟨hcur.symm, hname⟩⟩
    exact pair_sort x y (Less_asymm y x hy hx h2) h2

/-- Witness for C4 as amended at concrete entries: the comparator is
irreflexive at a concrete non-NaN entry, and fully-tied entries `a` and
`b` rank with `a` first from either input order. -/
theorem c4_ranking_amended_witness :
    sortableTotal.Less (sortableTotal.mk "a" (GFloat.finite 1) 0)
        (sortableTotal.mk "a" (GFloat.finite 1) 0) = false
    ∧ (sortTotals [sortableTotal.mk "a" (GFloat.finite 2) 5, sortableTotal.mk "b" (GFloat.finite 2) 5]
        = [sortableTotal.mk "a" (GFloat.finite 2) 5, sortableTotal.mk "b" (GFloat.finite 2) 5]
      ∧ sortTotals [sortableTotal.mk "b" (GFloat.finite 2) 5, sortableTotal.mk "a" (GFloat.finite 2) 5]
        = [sortableTotal.mk "a" (GFloat.finite 2) 5, sortableTotal.mk "b" (GFloat.finite 2) 5]) :=
  ⟨c4_ranking_amended.1 (sortableTotal.mk "a" (GFloat.finite 1) 0) rfl,
   c4_ranking_amended.2.2.2.2.2.2.2 (sortableTotal.mk "a" (GFloat.finite 2) 5)
     (sortableTotal.mk "b" (GFloat.finite 2) 5) rfl rfl (by decide) rfl (by decide)⟩

/-- Length of the break-at-listCount loop while the Go condition
`i >= listCount-1` has not yet been reached. -/
theorem gridLoop_length_le {A : Type} (listCount : Int) :
    ∀ (l : List A) (i : Int), i ≤ listCount - 1 →
      (gridLoop listCount i l).length = min (listCount - i).toNat l.length := by
  intro l
  induction l with
  | nil =>
      intro i _
      simp [gridLoop]
  | cons r rs ih =>
      intro i hi
      by_cases hb : listCount - 1 ≤ i
      · rw [gridLoop, if_pos hb]
        simp only [List.length_cons, List.length_nil]
        omega
      · rw [gridLoop, if_neg hb]
        have h2 := ih (i + 1) (by omega)
        simp only [List.length_cons, h2]
        omega

/-- Length of the loop when the break condition already holds at entry:
at most one row is emitted. -/
theorem gridLoop_length_stop {A : Type} (listCount : Int) (i : Int)
    (h : listCount - 1 ≤ i) :
    ∀ l : List A, (gridLoop listCount i l).length = min 1 l.length := by
  intro l
  cases l with
  | nil => simp [gridLoop]
  | cons r rs =>
      rw [gridLoop, if_pos h]
      simp only [List.length_cons, List.length_nil]
      omega

/-- Every row emitted by the loop comes from the input row list. -/
theorem mem_gridLoop {A : Type} (listCount : Int) :
    ∀ (l : List A) (i : Int) (y : A), y ∈ gridLoop listCount i l → y ∈ l := by
  intro l
  induction l with
  | nil =>
      intro i y h
      simp [gridLoop] at h
  | cons r rs ih =>
      intro i y h
      rw [gridLoop] at h
      by_cases hb : listCount - 1 ≤ i
      · rw [if_pos hb] at h
        simp at h
        simp [h]
      · rw [if_neg hb] at h
        rcases List.mem_cons.mp h with h1 | h1
        · simp [h1]
        · exact List.mem_cons.mpr (Or.inr (ih (i + 1) y h1))

/-- Sorting does not change the number of ranked entries. -/
theorem length_sortTotals (l : List sortableTotal) : (sortTotals l).length = l.length :=
  (perm_insSort _ l).length_eq

/-- Claim C8: with a positive listCount the grid renders exactly
`min listCount (number of diff entries)` entry rows after the header;
with listCount 0 the default 9 is substituted at render time. -/
theorem c8_truncation :
    (∀ (td : TopDiff) (now : String),
      (0 < td.listCount →
        (TopDiff.Grid td now).length = 1 + min td.listCount.toNat td.Totals.length)
      ∧ (td.listCount = 0 →
        (TopDiff.Grid td now).length = 1 + min 9 td.Totals.length))
    ∧ (∀ (od : OperationMetricsDiff) (now : String),
      (0 < od.listCount →
        (OperationMetricsDiff.Grid od now).length = 1 + min od.listCount.toNat od.Totals.length)
      ∧ (od.listCount = 0 →
        (OperationMetricsDiff.Grid od now).length = 1 + min 9 od.Totals.length)) := by
  constructor
  · intro td now
    constructor
    · intro h
      have hne : ¬td.listCount = 0 := by omega
      simp only [TopDiff.Grid, if_neg hne, List.length_cons]
      rw [gridLoop_length_le td.listCount _ 0 (by omega)]
      simp only [List.length_map, length_sortTotals]
      omega
    · intro h
      simp only [TopDiff.Grid, if_pos h, List.length_cons]
      rw [gridLoop_length_le 9 _ 0 (by omega)]
      simp only [List.length_map, length_sortTotals]
      omega
  · intro od now
    constructor
    · intro h
      have hne : ¬od.listCount = 0 := by omega
      simp only [OperationMetricsDiff.Grid, if_neg hne, List.length_cons]
      rw [gridLoop_length_le od.listCount _ 0 (by omega)]
      simp only [List.length_map, length_sortTotals]
      omega
    · intro h
      simp only [OperationMetricsDiff.Grid, if_pos h, List.length_cons]
      rw [gridLoop_length_le 9 _ 0 (by omega)]
      simp only [List.length_map, length_sortTotals]
      omega

/-- Witness for C8 at concrete diffs: listCount 2 over three entries
renders a header plus two rows; listCount 0 over one entry renders a
header plus one row (the default 9 caps, it does not pad). -/
theorem c8_truncation_witness :
    ((TopDiff.mk 1 0 (Top.mk 1 0 []) 2 false
        [("a", NSTopInfo.zero), ("b", NSTopInfo.zero), ("c", NSTopInfo.zero)]).Grid "t").length = 3
    ∧ ((OperationMetricsDiff.mk 1 0 (OperationMetrics.mk 1 0 []) 0 false
        [("a", OperationMetricsEntryDelta.zero)]).Grid "t").length = 2 := by
  constructor
  · have h1 := (c8_truncation.1 (TopDiff.mk 1 0 (Top.mk 1 0 []) 2 false
        [("a", NSTopInfo.zero), ("b", NSTopInfo.zero), ("c", NSTopInfo.zero)]) "t").1 (by decide)
    exact h1.trans (by decide)
  · have h2 := (c8_truncation.2 (OperationMetricsDiff.mk 1 0 (OperationMetrics.mk 1 0 []) 0 false
        [("a", OperationMetricsEntryDelta.zero)]) "t").2 rfl
    exact h2.trans (by decide)

/-- Claim C10: for a negative listCount the default of 9 is not
substituted (that happens only at exactly 0), and the break check
`i >= listCount-1` stops the loop after the first row, so a non-empty
diff renders exactly one entry row under any of the three grids. -/
theorem c10_negative_listcount :
    (∀ (td : TopDiff) (now : String), td.listCount < 0 → td.Totals ≠ [] →
      (TopDiff.Grid td now).length = 2)
    ∧ (∀ (od : OperationMetricsDiff) (now : String), od.listCount < 0 → od.Totals ≠ [] →
      (OperationMetricsDiff.Grid od now).length = 2)
    ∧ (∀ (ssd : ServerStatusDiff) (now : String), ssd.listCount < 0 → ssd.Totals ≠ [] →
      (ServerStatusDiff.Grid ssd now).length = 2) := by
  refine ⟨fun td now h hne => ?_, fun od now h hne => ?_, fun ssd now h hne => ?_⟩
  · have hnz : ¬td.listCount = 0 := by omega
    have hlen : 0 < td.Totals.length := List.length_pos.mpr hne
    simp only [TopDiff.Grid, if_neg hnz, List.length_cons]
    rw [gridLoop_length_stop td.listCount 0 (by omega)]
    simp only [List.length_map, length_sortTotals]
    omega
  · have hnz : ¬od.listCount = 0 := by omega
    have hlen : 0 < od.Totals.length := List.length_pos.mpr hne
    simp only [OperationMetricsDiff.Grid, if_neg hnz, List.length_cons]
    rw [gridLoop_length_stop od.listCount 0 (by omega)]
    simp only [List.length_map, length_sortTotals]
    omega
  · have hnz : ¬ssd.listCount = 0 := by omega
    have hlen : 0 < ssd.Totals.length := List.length_pos.mpr hne
    simp only [ServerStatusDiff.Grid, if_neg hnz, List.length_cons]
    rw [gridLoop_length_stop ssd.listCount 0 (by omega)]
    simp only [List.length_map, length_sortTotals]
    omega

/-- Witness for C10 at a concrete lock-usage diff with two entries and
listCount -5: a header plus exactly one entry row. -/
theorem c10_negative_listcount_witness :
    ((ServerStatusDiff.mk (ServerStatus.mk 0 none) (-5)
        [("a", LockDelta.zero), ("b", LockDelta.zero)]).Grid "t").length = 2 :=
  c10_negative_listcount.2.2
    (ServerStatusDiff.mk (ServerStatus.mk 0 none) (-5)
      [("a", LockDelta.zero), ("b", LockDelta.zero)]) "t" (by decide) (by decide)

/-- A float is one of the three IEEE special values. -/
def isSpecial (x : GFloat) : Prop :=
  x = GFloat.nan ∨ x = GFloat.posInf ∨ x = GFloat.negInf

/-- Dividing a converted integer by a converted zero yields a special
value (NaN for 0/0, a signed infinity otherwise), never a crash. -/
theorem fdiv_by_zero (n : Int) : isSpecial ((GFloat.ofInt n).fdiv (GFloat.ofInt 0)) := by
  unfold GFloat.ofInt isSpecial
  simp only [GFloat.fdiv, Int.cast_zero, if_true]
  rcases lt_trichotomy (n : ℚ) 0 with h | h | h
  · rw [if_neg (ne_of_lt h), if_neg (not_lt_of_gt h)]
    simp
  · rw [if_pos h]
    simp
  · rw [if_neg (ne_of_gt h), if_pos h]
    simp

/-- Multiplying a special value by a converted integer stays special. -/
theorem fmul_special (x : GFloat) (h : isSpecial x) (m : Int) :
    isSpecial (x.fmul (GFloat.ofInt m)) := by
  rcases h with h | h | h <;> subst h <;> unfold GFloat.ofInt isSpecial <;>
    simp only [GFloat.fmul]
  · simp
  · by_cases h0 : (m : ℚ) = 0
    · simp [h0]
    · by_cases hp : 0 < (m : ℚ) <;> simp [h0, hp]
  · by_cases h0 : (m : ℚ) = 0
    · simp [h0]
    · by_cases hp : 0 < (m : ℚ) <;> simp [h0, hp]

/-- Dividing a special value by a converted integer stays special. -/
theorem fdiv_special (x : GFloat) (h : isSpecial x) (m : Int) :
    isSpecial (x.fdiv (GFloat.ofInt m)) := by
  rcases h with h | h | h <;> subst h <;> unfold GFloat.ofInt isSpecial <;>
    simp only [GFloat.fdiv]
  · simp
  · by_cases hp : (m : ℚ) < 0 <;> simp [hp]
  · by_cases hp : (m : ℚ) < 0 <;> simp [hp]

/-- A rendered cell is a defined degenerate sentinel with the given unit
suffix. -/
def degenCell (s : String) (suffix : String) : Prop :=
  s = "NaN" ++ suffix ∨ s = "+Inf" ++ suffix ∨ s = "-Inf" ++ suffix

/-- Formatting a special value and appending the unit suffix gives a
sentinel cell. -/
theorem fmt_append_degen (x : GFloat) (h : isSpecial x) (prec : Nat) (suffix : String) :
    degenCell (GFloat.fmt prec x ++ suffix) suffix := by
  rcases h with h | h | h <;> subst h
  · exact Or.inl rfl
  · exact Or.inr (Or.inl rfl)
  · exact Or.inr (Or.inr rfl)

/-- Claim C6: grid rendering never crashes on a zero divisor.  Every
entry row is fully produced (15 cells for namespace-top, 6 for
operation-metrics); when the elapsed time truncates to zero every
per-second and percentage cell is a formatted sentinel (NaN or a signed
infinity), and a zero operation-count delta makes the per-operation
latency cell a formatted sentinel. -/
theorem c6_zero_divisor_safety :
    (∀ (td : TopDiff) (now : String) (row : List String),
      row ∈ (TopDiff.Grid td now).tail →
      row.length = 15
      ∧ ∃ st : sortableTotal, row = renderTopRow td st
        ∧ (Int.tdiv td.elapsed 1000000000 = 0 →
            degenCell (row.getD 5 "") "op/s" ∧ degenCell (row.getD 9 "") "op/s"
            ∧ degenCell (row.getD 13 "") "op/s")
        ∧ (Int.tdiv td.elapsed 1000000 = 0 →
            degenCell (row.getD 2 "") "%" ∧ degenCell (row.getD 3 "") "%"
            ∧ degenCell (row.getD 7 "") "%" ∧ degenCell (row.getD 11 "") "%")
        ∧ ((mapIndex td.Totals st.Name NSTopInfo.zero).Total.Count = 0 →
            degenCell (row.getD 4 "") "ms/op"))
    ∧ (∀ (od : OperationMetricsDiff) (now : String) (row : List String),
      row ∈ (OperationMetricsDiff.Grid od now).tail →
      row.length = 6
      ∧ (Int.tdiv od.elapsed 1000000000 = 0 →
          degenCell (row.getD 2 "") "Units/s" ∧ degenCell (row.getD 3 "") "RUnits/s"
          ∧ degenCell (row.getD 4 "") "WUnits/s")) := by
  constructor
  · intro td now row hrow
    simp only [TopDiff.Grid, List.tail_cons] at hrow
    have hrow2 := mem_gridLoop _ _ _ _ hrow
    obtain ⟨st, hst, heq⟩ := List.mem_map.mp hrow2
    subst heq
    refine ⟨rfl, st, rfl, fun h => ?_, fun h => ?_, fun h => ?_⟩
    · refine ⟨?_, ?_, ?_⟩
      · show degenCell (GFloat.fmt 1
            ((GFloat.ofInt (mapIndex td.Totals st.Name NSTopInfo.zero).Total.Count).fdiv
              (GFloat.ofInt (Int.tdiv td.elapsed 1000000000))) ++ "op/s") "op/s"
        rw [h]
        exact fmt_append_degen _ (fdiv_by_zero _) 1 "op/s"
      · show degenCell (GFloat.fmt 1
            ((GFloat.ofInt (mapIndex td.Totals st.Name NSTopInfo.zero).Read.Count).fdiv
              (GFloat.ofInt (Int.tdiv td.elapsed 1000000000))) ++ "op/s") "op/s"
        rw [h]
        exact fmt_append_degen _ (fdiv_by_zero _) 1 "op/s"
      · show degenCell (GFloat.fmt 1
            ((GFloat.ofInt (mapIndex td.Totals st.Name NSTopInfo.zero).Write.Count).fdiv
              (GFloat.ofInt (Int.tdiv td.elapsed 1000000000))) ++ "op/s") "op/s"
        rw [h]
        exact fmt_append_degen _ (fdiv_by_zero _) 1 "op/s"
    · refine ⟨?_, ?_, ?_, ?_⟩
      · show degenCell (GFloat.fmt 1
            (((GFloat.ofInt (mapIndex td.Totals st.Name NSTopInfo.zero).Total.Time).fdiv
              (GFloat.ofInt (Int.tdiv td.elapsed 1000000))).fmul (GFloat.ofInt 100)) ++ "%") "%"
        rw [h]
        exact fmt_append_degen _ (fmul_special _ (fdiv_by_zero _) 100) 1 "%"
      · show degenCell (GFloat.fmt 2
            ((((GFloat.ofInt (mapIndex td.Totals st.Name NSTopInfo.zero).Total.Time).fdiv
              (GFloat.ofInt (Int.tdiv td.elapsed 1000000))).fmul (GFloat.ofInt 100)).fdiv
                (GFloat.ofInt td.numCores)) ++ "%") "%"
        rw [h]
        exact fmt_append_degen _
          (fdiv_special _ (fmul_special _ (fdiv_by_zero _) 100) td.numCores) 2 "%"
      · show degenCell (GFloat.fmt 1
            (((GFloat.ofInt (mapIndex td.Totals st.Name NSTopInfo.zero).Read.Time).fdiv
              (GFloat.ofInt (Int.tdiv td.elapsed 1000000))).fmul (GFloat.ofInt 100)) ++ "%") "%"
        rw [h]
        exact fmt_append_degen _ (fmul_special _ (fdiv_by_zero _) 100) 1 "%"
      · show degenCell (GFloat.fmt 1
            (((GFloat.ofInt (mapIndex td.Totals st.Name NSTopInfo.zero).Write.Time).fdiv
              (GFloat.ofInt (Int.tdiv td.elapsed 1000000))).fmul (GFloat.ofInt 100)) ++ "%") "%"
        rw [h]
        exact fmt_append_degen _ (fmul_special _ (fdiv_by_zero _) 100) 1 "%"
    · show degenCell (GFloat.fmt 1
          ((GFloat.ofInt (mapIndex td.Totals st.Name NSTopInfo.zero).Total.Time).fdiv
            (GFloat.ofInt (mapIndex td.Totals st.Name NSTopInfo.zero).Total.Count)) ++ "ms/op") "ms/op"
      rw [h]
      exact fmt_append_degen _ (fdiv_by_zero _) 1 "ms/op"
  · intro od now row hrow
    simp only [OperationMetricsDiff.Grid, List.tail_cons] at hrow
    have hrow2 := mem_gridLoop _ _ _ _ hrow
    obtain ⟨st, hst, heq⟩ := List.mem_map.mp hrow2
    subst heq
    refine ⟨rfl, fun h => ⟨?_, ?_, ?_⟩⟩
    · show degenCell (GFloat.fmt 1
          ((GFloat.ofInt (mapIndex od.Totals st.Name OperationMetricsEntryDelta.zero).TotalDocUnits).fdiv
            (GFloat.ofInt (Int.tdiv od.elapsed 1000000000))) ++ "Units/s") "Units/s"
      rw [h]
      exact fmt_append_degen _ (fdiv_by_zero _) 1 "Units/s"
    · show degenCell (GFloat.fmt 1
          ((GFloat.ofInt ((mapIndex od.Totals st.Name OperationMetricsEntryDelta.zero).PrimaryMetrics.DocUnitsRead
              + (mapIndex od.Totals st.Name OperationMetricsEntryDelta.zero).SecondaryMetrics.DocUnitsRead)).fdiv
            (GFloat.ofInt (Int.tdiv od.elapsed 1000000000))) ++ "RUnits/s") "RUnits/s"
      rw [h]
      exact fmt_append_degen _ (fdiv_by_zero _) 1 "RUnits/s"
    · show degenCell (GFloat.fmt 1
          ((GFloat.ofInt (mapIndex od.Totals st.Name OperationMetricsEntryDelta.zero).DocUnitsWritten).fdiv
            (GFloat.ofInt (Int.tdiv od.elapsed 1000000000))) ++ "WUnits/s") "WUnits/s"
      rw [h]
      exact fmt_append_degen _ (fdiv_by_zero _) 1 "WUnits/s"

/-- Witness for C6 at a concrete zero-elapsed, zero-count diff: the
rendered row is complete and its op/s cell is the NaN sentinel. -/
theorem c6_zero_divisor_safety_witness :
    (["a", "0ms", "NaN%", "NaN%", "NaNms/op", "NaNop/s", "0ms", "NaN%", "NaNms/op", "NaNop/s",
      "0ms", "NaN%", "NaNms/op", "NaNop/s", ""] : List String).length = 15
    ∧ degenCell ((["a", "0ms", "NaN%", "NaN%", "NaNms/op", "NaNop/s", "0ms", "NaN%", "NaNms/op",
        "NaNop/s", "0ms", "NaN%", "NaNms/op", "NaNop/s", ""] : List String).getD 5 "") "op/s" := by
  have h := c6_zero_divisor_safety.1
    (TopDiff.mk 1 0 (Top.mk 1 0 []) 0 false [("a", NSTopInfo.zero)]) "t"
    ["a", "0ms", "NaN%", "NaN%", "NaNms/op", "NaNop/s", "0ms", "NaN%", "NaNms/op", "NaNop/s",
     "0ms", "NaN%", "NaNms/op", "NaNop/s", ""] (by decide)
  obtain ⟨hlen, st, hrow, h1, h2, h3⟩ := h
  exact ⟨hlen, (h1 rfl).1⟩

end Mongotop
